import Mathlib

/-! QEO ABZ signal generation example (`src/qeo_abz.c`)

A shallow embedding of `qeo_gen_abz_signal_software` and
`qeo_gen_abz_signal_hardware`.  Both functions are straight-line sequences of
driver calls (plus one `for` loop), so each is embedded as a function that
returns the ordered list of driver calls it performs.  What the drivers and
the clock tree answer is not part of this file of the repository and is
taken from an environment value.

Machine integers are natural numbers reduced modulo `2^32` where the C
variable is a `uint32_t`.
-/

namespace QeoAbz

/-! ## Constants of the source -/

/-- Number of encoder lines per revolution, `#define TEST_QEO_ABZ_LINES (1024U)`. -/
def TEST_QEO_ABZ_LINES : Nat := 1024

/-- Maximum frequency of the ABZ signals in Hz, `#define TEST_QEO_ABZ_MAX_FREQ (250000U)`. -/
def TEST_QEO_ABZ_MAX_FREQ : Nat := 250000

/-- Position span, `#define QEO_POSITION_MAX_VAL (0x100000000UL)`.  The constant
does not fit 32 bits, so it has a 64-bit unsigned type. -/
def QEO_POSITION_MAX_VAL : Nat := 0x100000000

/-- Reduction of a value to a `uint32_t`. -/
def u32 (n : Nat) : Nat := n % 2 ^ 32

/-- Reduction of a value to a 64-bit unsigned integer. -/
def u64 (n : Nat) : Nat := n % 2 ^ 64

/-- Status word returned by the drivers (`hpm_stat_t`). -/
abbrev hpm_stat_t := Nat

/-- The success status of the drivers; the source only compares with it. -/
def status_success : hpm_stat_t := 0

/-! ## Driver calls -/

/-- The QEO instances the source drives: `TEST_QEO` and `HPM_QEO1`. -/
inductive Qeo where
  | TEST_QEO
  | HPM_QEO1
  deriving DecidableEq, Repr

/-- The field of `qeo_abz_mode_t` the source assigns; `default_type` stands for
whatever `qeo_abz_get_default_mode_config` stored there. -/
inductive OutputType where
  | default_type
  | qeo_abz_output_pulse_revise
  deriving DecidableEq, Repr

/-- The ABZ mode configuration `qeo_abz_mode_t`: the field the source writes,
and the remaining fields as filled in by the driver. -/
structure qeo_abz_mode_t where
  output_type : OutputType
  rest : Nat
  deriving DecidableEq, Repr

/-- Outputs of the position matrix named in the source. -/
inductive TrgmOut where
  | QEO_TRGM_POS
  | trgm_pos_matrix_output_to_qeo1
  deriving DecidableEq, Repr

/-- Inputs of the position matrix named in the source. -/
inductive TrgmIn where
  | trgm_pos_matrix_in_from_mmc0_pos0
  | trgm_pos_matrix_in_from_qei0
  deriving DecidableEq, Repr

/-- The messages printed by the two functions. -/
inductive Msg where
  | software_banner
  | software_max_freq_failed
  | hardware_banner
  | qeo0_max_freq_failed
  | qeo1_max_freq_failed
  deriving DecidableEq, Repr

/-- One call made by the source, with its arguments. -/
inductive Call where
  | printf (m : Msg)
  | qeo_abz_get_default_mode_config (q : Qeo)
  | qeo_abz_config_mode (q : Qeo) (config : qeo_abz_mode_t)
  | qeo_abz_set_resolution_lines (q : Qeo) (lines : Nat)
  | qeo_abz_set_max_frequency (q : Qeo) (src_freq : Nat) (freq : Nat)
  | qeo_enable_software_position_inject (q : Qeo)
  | qeo_software_position_inject (q : Qeo) (position : Nat)
  | board_delay_us (us : Nat)
  | qeo_disable_software_position_inject (q : Qeo)
  | trgm_pos_matrix_config (out : TrgmOut) (inp : TrgmIn) (inv : Bool)
  | mmc_open_loop_pred
  | synt_enable_timestamp (enable : Bool)
  | synt_enable_timestamp_debug_stop (enable : Bool)
  deriving DecidableEq, Repr

/-- What the drivers and the clock tree answer. -/
structure Env where
  /-- The value of `clock_get_frequency(BOARD_MOTOR_CLK_NAME)`. -/
  clock_get_frequency : Nat
  /-- The configuration stored by `qeo_abz_get_default_mode_config`. -/
  default_mode_config : Qeo → qeo_abz_mode_t
  /-- The status returned by `qeo_abz_set_max_frequency (base, src_freq, freq)`. -/
  set_max_frequency_status : Qeo → Nat → Nat → hpm_stat_t

/-! ## `qeo_gen_abz_signal_software` -/

/-- The initialiser `uint32_t period_us = 1000000 / TEST_QEO_ABZ_MAX_FREQ`. -/
def period_us : Nat := u32 (1000000 / TEST_QEO_ABZ_MAX_FREQ)

/-- The assignment `post_unit = QEO_POSITION_MAX_VAL / TEST_QEO_ABZ_LINES`: a
64-bit division stored into a `uint32_t`. -/
def post_unit : Nat := u32 (u64 (QEO_POSITION_MAX_VAL / TEST_QEO_ABZ_LINES))

/-- The `if (period_us == 0)` statement choosing `delay_time`. -/
def delay_time : Nat := if period_us = 0 then 1 else period_us

/-- The body of the `for` loop at index `i`: inject `post_unit * i`, then wait
`delay_time * 16` microseconds (both `uint32_t` expressions). -/
def loop_body (i : Nat) : List Call :=
  [Call.qeo_software_position_inject Qeo.TEST_QEO (u32 (post_unit * i)),
   Call.board_delay_us (u32 (delay_time * 16))]

/-- The loop `for (uint32_t i = 0; i < TEST_QEO_ABZ_LINES * 2; i += 16)` started
at index `i`.  Each unit of fuel pays for one evaluation of the loop condition;
the result is `none` when the fuel runs out before the condition fails. -/
def software_loop : Nat → Nat → Option (List Call)
  | 0, _ => none
  | fuel + 1, i =>
    if i < u32 (TEST_QEO_ABZ_LINES * 2) then
      (software_loop fuel (u32 (i + 16))).map (fun rest => loop_body i ++ rest)
    else
      some []

/-- The calls made by `qeo_gen_abz_signal_software`, in order; `none` when the
fuel does not suffice for the loop. -/
def qeo_gen_abz_signal_software (env : Env) (fuel : Nat) : Option (List Call) :=
  let config := env.default_mode_config Qeo.TEST_QEO
  let setup : List Call :=
    [Call.printf Msg.software_banner,
     Call.qeo_abz_get_default_mode_config Qeo.TEST_QEO,
     Call.qeo_abz_config_mode Qeo.TEST_QEO config,
     Call.qeo_abz_set_resolution_lines Qeo.TEST_QEO TEST_QEO_ABZ_LINES,
     Call.qeo_abz_set_max_frequency Qeo.TEST_QEO env.clock_get_frequency TEST_QEO_ABZ_MAX_FREQ]
  if status_success ≠
      env.set_max_frequency_status Qeo.TEST_QEO env.clock_get_frequency TEST_QEO_ABZ_MAX_FREQ then
    some (setup ++ [Call.printf Msg.software_max_freq_failed])
  else
    (software_loop fuel 0).map (fun loop =>
      setup ++ [Call.qeo_enable_software_position_inject Qeo.TEST_QEO] ++ loop ++
        [Call.qeo_software_position_inject Qeo.TEST_QEO 0,
         Call.qeo_disable_software_position_inject Qeo.TEST_QEO])

/-! ## `qeo_gen_abz_signal_hardware` -/

/-- The calls made by `qeo_gen_abz_signal_hardware`, in order. -/
def qeo_gen_abz_signal_hardware (env : Env) : List Call :=
  let config := env.default_mode_config Qeo.TEST_QEO
  let config1 : qeo_abz_mode_t :=
    { env.default_mode_config Qeo.HPM_QEO1 with
      output_type := OutputType.qeo_abz_output_pulse_revise }
  let setup : List Call :=
    [Call.printf Msg.hardware_banner,
     Call.qeo_abz_get_default_mode_config Qeo.TEST_QEO,
     Call.qeo_abz_get_default_mode_config Qeo.HPM_QEO1,
     Call.qeo_abz_config_mode Qeo.TEST_QEO config,
     Call.qeo_abz_config_mode Qeo.HPM_QEO1 config1,
     Call.qeo_abz_set_resolution_lines Qeo.TEST_QEO TEST_QEO_ABZ_LINES,
     Call.qeo_abz_set_resolution_lines Qeo.HPM_QEO1 TEST_QEO_ABZ_LINES,
     Call.qeo_abz_set_max_frequency Qeo.TEST_QEO env.clock_get_frequency TEST_QEO_ABZ_MAX_FREQ]
  if status_success ≠
      env.set_max_frequency_status Qeo.TEST_QEO env.clock_get_frequency TEST_QEO_ABZ_MAX_FREQ then
    setup ++ [Call.printf Msg.qeo0_max_freq_failed]
  else
    let setup1 := setup ++
      [Call.qeo_abz_set_max_frequency Qeo.HPM_QEO1 env.clock_get_frequency TEST_QEO_ABZ_MAX_FREQ]
    if status_success ≠
        env.set_max_frequency_status Qeo.HPM_QEO1 env.clock_get_frequency TEST_QEO_ABZ_MAX_FREQ then
      setup1 ++ [Call.printf Msg.qeo1_max_freq_failed]
    else
      setup1 ++
        [Call.trgm_pos_matrix_config TrgmOut.QEO_TRGM_POS
           TrgmIn.trgm_pos_matrix_in_from_mmc0_pos0 false,
         Call.mmc_open_loop_pred,
         Call.trgm_pos_matrix_config TrgmOut.trgm_pos_matrix_output_to_qeo1
           TrgmIn.trgm_pos_matrix_in_from_qei0 false,
         Call.synt_enable_timestamp true,
         Call.synt_enable_timestamp_debug_stop true]

/-! ## Observations on a list of calls -/

/-- The position carried by a call of `qeo_software_position_inject`. -/
def Call.injected : Call → Option Nat
  | Call.qeo_software_position_inject _ p => some p
  | _ => none

/-- The time carried by a call of `board_delay_us`. -/
def Call.delay : Call → Option Nat
  | Call.board_delay_us us => some us
  | _ => none

/-- Whether a call is `qeo_software_position_inject`. -/
def Call.is_position_inject : Call → Bool
  | Call.qeo_software_position_inject _ _ => true
  | _ => false

/-- Whether a call is `qeo_enable_software_position_inject`. -/
def Call.is_enable_inject : Call → Bool
  | Call.qeo_enable_software_position_inject _ => true
  | _ => false

/-- Whether a call is `qeo_disable_software_position_inject`. -/
def Call.is_disable_inject : Call → Bool
  | Call.qeo_disable_software_position_inject _ => true
  | _ => false

/-- Whether a call is `qeo_abz_set_max_frequency` for the given instance. -/
def Call.is_set_max_frequency (q : Qeo) : Call → Bool
  | Call.qeo_abz_set_max_frequency q1 _ _ => decide (q1 = q)
  | _ => false

/-- Whether a call is one of the position-routing and timestamp calls that
follow the frequency configuration in `qeo_gen_abz_signal_hardware`. -/
def Call.is_routing : Call → Bool
  | Call.trgm_pos_matrix_config _ _ _ => true
  | Call.mmc_open_loop_pred => true
  | Call.synt_enable_timestamp _ => true
  | Call.synt_enable_timestamp_debug_stop _ => true
  | _ => false

/-- The positions passed to `qeo_software_position_inject`, in call order. -/
def injected_positions (trace : List Call) : List Nat :=
  trace.filterMap Call.injected

/-- The times passed to `board_delay_us`, in call order. -/
def delays (trace : List Call) : List Nat :=
  trace.filterMap Call.delay

/-- The calls of the loop bodies at the indices `0, 16, ..., 2032`, in order. -/
def loop_calls : List Call :=
  (List.range 128).flatMap (fun k => loop_body (16 * k))

/-- The positions of one forward revolution in steps of `2^26`. -/
def revolution_positions : List Nat :=
  (List.range 64).map (fun k => k * 2 ^ 26)

/-! ## Quantities of the specification -/

/-- Modelled from the spec: the quadrature sub-state of a position,
`(position / (line_width / 4)) mod 4`.  The QEO hardware computes the A/B state;
no function of the source does. -/
def sub_state (line_width position : Nat) : Nat :=
  (position / (line_width / 4)) % 4

/-! ## Sample environments -/

/-- The default configuration used by the sample environments. -/
def sample_config (_ : Qeo) : qeo_abz_mode_t :=
  { output_type := OutputType.default_type, rest := 0 }

/-- A board with a 200 MHz motor clock on which every frequency configuration
succeeds. -/
def env_ok : Env :=
  { clock_get_frequency := 200000000
    default_mode_config := sample_config
    set_max_frequency_status := fun _ _ _ => status_success }

/-- A board on which every frequency configuration fails with status 2. -/
def env_fail : Env :=
  { clock_get_frequency := 200000000
    default_mode_config := sample_config
    set_max_frequency_status := fun _ _ _ => 2 }

/-- A board on which the frequency configuration succeeds for `TEST_QEO` and
fails with status 2 for `HPM_QEO1`. -/
def env_fail_qeo1 : Env :=
  { clock_get_frequency := 200000000
    default_mode_config := sample_config
    set_max_frequency_status := fun q _ _ =>
      match q with
      | Qeo.TEST_QEO => status_success
      | Qeo.HPM_QEO1 => 2 }

/-! ## The loop -/

/-- More fuel does not change a result already reached. -/
theorem software_loop_mono (fuel : Nat) :
    ∀ (i : Nat) (t : List Call), software_loop fuel i = some t →
      ∀ m, software_loop (fuel + m) i = some t := by
  induction fuel with
  | zero => intro i t h; simp [software_loop] at h
  | succ n ih =>
    intro i t h m
    rw [Nat.add_right_comm]
    rw [software_loop] at h ⊢
    split
    · rename_i hlt
      rw [if_pos hlt] at h
      cases hrec : software_loop n (u32 (i + 16)) with
      | none => rw [hrec] at h; simp at h
      | some r => rw [ih _ _ hrec m]; rw [hrec] at h; exact h
    · rename_i hlt
      rw [if_neg hlt] at h
      exact h

set_option maxRecDepth 100000 in
/-- With fuel for 129 evaluations of the condition the loop runs to its exit. -/
theorem software_loop_129 : software_loop 129 0 = some loop_calls := by decide

set_option maxRecDepth 100000 in
/-- With fuel for 128 evaluations of the condition the loop has not exited. -/
theorem software_loop_128 : software_loop 128 0 = none := by decide

/-- The loop exits, with the same calls, for every fuel of at least 129. -/
theorem software_loop_eq (fuel : Nat) : software_loop (fuel + 129) 0 = some loop_calls := by
  rw [Nat.add_comm]
  exact software_loop_mono 129 0 loop_calls software_loop_129 fuel

/-- The loop does not exit within 128 evaluations of its condition. -/
theorem software_loop_short (fuel : Nat) (h : fuel ≤ 128) : software_loop fuel 0 = none := by
  cases hrec : software_loop fuel 0 with
  | none => rfl
  | some t =>
    have h2 := software_loop_mono fuel 0 t hrec (128 - fuel)
    rw [Nat.add_sub_cancel' h, software_loop_128] at h2
    simp at h2

set_option maxRecDepth 100000 in
/-- The positions injected by the loop: one revolution, twice. -/
theorem injected_positions_loop_calls :
    injected_positions loop_calls = revolution_positions ++ revolution_positions := by decide

set_option maxRecDepth 100000 in
/-- The waits of the loop: 128 times 64 microseconds. -/
theorem delays_loop_calls : delays loop_calls = List.replicate 128 64 := by decide

theorem injected_positions_append (a b : List Call) :
    injected_positions (a ++ b) = injected_positions a ++ injected_positions b := by
  simp [injected_positions]

set_option maxRecDepth 100000 in
/-- The loop starts with the body at index 0. -/
theorem loop_calls_head :
    loop_calls =
      loop_body (16 * 0) ++ (List.range' 1 127).flatMap (fun k => loop_body (16 * k)) := by
  decide

set_option maxRecDepth 100000 in
/-- The loop neither enables nor disables software injection. -/
theorem loop_calls_no_switch :
    loop_calls.countP Call.is_enable_inject = 0 ∧
    loop_calls.countP Call.is_disable_inject = 0 := by
  decide

set_option maxRecDepth 100000 in
/-- The positions of the two revolutions and the reset lie on line boundaries. -/
theorem positions_on_line_boundary :
    ∀ p ∈ revolution_positions ++ revolution_positions ++ [0],
      16 * post_unit ∣ p ∧ post_unit ∣ p ∧ sub_state post_unit p = 0 := by
  decide

/-- Whatever the fuel, a loop that exits has made the calls `loop_calls`. -/
theorem software_loop_some (fuel : Nat) (t : List Call) (h : software_loop fuel 0 = some t) :
    t = loop_calls := by
  by_cases hf : fuel ≤ 128
  · rw [software_loop_short fuel hf] at h
    simp at h
  · have hfuel : fuel = (fuel - 129) + 129 := by omega
    rw [hfuel, software_loop_eq] at h
    exact (Option.some.inj h).symm

/-! ## The position increment and the injected positions -/

/-- C1: the position increment per line `post_unit` is 4194304 for the span
`2^32` and 1024 lines; the division leaves no remainder, the result is positive,
the quotient fits 32 bits so that storing it does not truncate, and
`post_unit * 1024 = 2^32`. -/
theorem C1_post_unit_exact :
    QEO_POSITION_MAX_VAL = 2 ^ 32 ∧ TEST_QEO_ABZ_LINES = 1024 ∧
    post_unit = 4194304 ∧
    QEO_POSITION_MAX_VAL % TEST_QEO_ABZ_LINES = 0 ∧
    0 < post_unit ∧
    QEO_POSITION_MAX_VAL / TEST_QEO_ABZ_LINES < 2 ^ 32 ∧
    post_unit = QEO_POSITION_MAX_VAL / TEST_QEO_ABZ_LINES ∧
    post_unit * 1024 = 2 ^ 32 := by
  decide

/-- C2, as stated, fails: the loop runs its body at index `1024 = 16 * 64`, where
the exact product `post_unit * 1024` is `2^32`, outside `[0, 2^32)`, and the
32-bit value injected there is 0, not the exact product. -/
theorem C2_wraps_at_index_1024 :
    software_loop 129 0 = some ((List.range 128).flatMap (fun k => loop_body (16 * k))) ∧
    (16 * 64 = 1024 ∧ 64 ∈ List.range 128) ∧
    loop_body 1024 =
      [Call.qeo_software_position_inject Qeo.TEST_QEO 0, Call.board_delay_us 64] ∧
    post_unit * 1024 = 2 ^ 32 ∧
    ¬ (post_unit * 1024 < 2 ^ 32) ∧
    u32 (post_unit * 1024) ≠ post_unit * 1024 := by
  refine ⟨software_loop_129, by decide, by decide, by decide, by decide, by decide⟩

/-- C2, amended: the loop runs its body at the indices `i = 16 * k`, `k < 128`.
The value injected at `i` is `post_unit * i` reduced modulo `2^32`.  In the first
revolution (`i < 1024`) the exact product lies in `[0, 2^32)` and is injected
unchanged; in the second (`1024 ≤ i`) the exact product is at least `2^32` and
the injected value is the product minus `2^32`. -/
theorem C2_positions_modulo_span (fuel : Nat) :
    software_loop (fuel + 129) 0 =
      some ((List.range 128).flatMap (fun k => loop_body (16 * k))) ∧
    ∀ k, k < 128 →
      loop_body (16 * k) =
        [Call.qeo_software_position_inject Qeo.TEST_QEO ((post_unit * (16 * k)) % 2 ^ 32),
         Call.board_delay_us 64] ∧
      (16 * k < 1024 →
        post_unit * (16 * k) < 2 ^ 32 ∧
        (post_unit * (16 * k)) % 2 ^ 32 = post_unit * (16 * k)) ∧
      (1024 ≤ 16 * k →
        2 ^ 32 ≤ post_unit * (16 * k) ∧
        (post_unit * (16 * k)) % 2 ^ 32 = post_unit * (16 * k) - 2 ^ 32) := by
  refine ⟨software_loop_eq fuel, ?_⟩
  intro k hk
  have hp : post_unit = 4194304 := by decide
  have hd : u32 (delay_time * 16) = 64 := by decide
  refine ⟨by rw [loop_body, hd]; rfl, ?_, ?_⟩
  · intro h
    rw [hp]
    omega
  · intro h
    rw [hp]
    omega

/-- C2, amended, at the last index of the first revolution and at the first
index of the second. -/
theorem C2_positions_modulo_span_witness :
    (63 < 128 ∧ 16 * 63 < 1024 ∧
      (post_unit * (16 * 63) < 2 ^ 32 ∧
        (post_unit * (16 * 63)) % 2 ^ 32 = post_unit * (16 * 63))) ∧
    (64 < 128 ∧ 1024 ≤ 16 * 64 ∧
      (2 ^ 32 ≤ post_unit * (16 * 64) ∧
        (post_unit * (16 * 64)) % 2 ^ 32 = post_unit * (16 * 64) - 2 ^ 32)) :=
  ⟨⟨by decide, by decide, ((C2_positions_modulo_span 0).2 63 (by decide)).2.1 (by decide)⟩,
   ⟨by decide, by decide, ((C2_positions_modulo_span 0).2 64 (by decide)).2.2 (by decide)⟩⟩

set_option maxRecDepth 100000 in
/-- C4: the positions injected by the loop advance at constant velocity: each
injected 32-bit position is the one before it plus `16 * post_unit = 67108864`
modulo `2^32`; this holds across the revolution boundary as well, where
`63 * 2^26` is followed by 0. -/
theorem C4_constant_velocity (fuel : Nat) :
    16 * post_unit = 67108864 ∧
    ∃ trace, software_loop (fuel + 129) 0 = some trace ∧
      (injected_positions trace).length = 128 ∧
      (∀ n, n < 127 →
        (injected_positions trace).getD (n + 1) 0 =
          ((injected_positions trace).getD n 0 + 16 * post_unit) % 2 ^ 32) ∧
      (injected_positions trace).getD 63 0 = 63 * 2 ^ 26 ∧
      (injected_positions trace).getD 64 0 = 0 := by
  refine ⟨by decide, loop_calls, software_loop_eq fuel, ?_⟩
  rw [injected_positions_loop_calls]
  decide

/-- C4 at the revolution boundary. -/
theorem C4_constant_velocity_witness :
    ∃ trace, software_loop 129 0 = some trace ∧
      (injected_positions trace).getD 64 0 =
        ((injected_positions trace).getD 63 0 + 16 * post_unit) % 2 ^ 32 := by
  obtain ⟨trace, h, _, hstep, _⟩ := (C4_constant_velocity 0).2
  exact ⟨trace, h, hstep 63 (by decide)⟩

set_option maxRecDepth 100000 in
/-- C5: the loop simulates two forward revolutions.  It exits after exactly 128
executions of its body (129 evaluations of its condition suffice, 128 do not),
with 128 injections; the injected positions are the strictly increasing
sequence `0, 2^26, ..., 63 * 2^26` followed by the same sequence again; and the
body at index `i = 16 * k` injects position 0 exactly when `i = 0` or
`i = 1024`. -/
theorem C5_two_revolutions (fuel : Nat) :
    (∀ f, f ≤ 128 → software_loop f 0 = none) ∧
    ∃ trace, software_loop (fuel + 129) 0 = some trace ∧
      trace = (List.range 128).flatMap (fun k => loop_body (16 * k)) ∧
      trace.countP Call.is_position_inject = 128 ∧
      injected_positions trace = revolution_positions ++ revolution_positions ∧
      revolution_positions = (List.range 64).map (fun k => k * 2 ^ 26) ∧
      revolution_positions.length = 64 ∧
      revolution_positions.Pairwise (fun a b => a < b) ∧
      revolution_positions.count 0 = 1 ∧
      (∀ k, k < 128 →
        (injected_positions (loop_body (16 * k)) = [0] ↔ 16 * k = 0 ∨ 16 * k = 1024)) := by
  refine ⟨software_loop_short, loop_calls, software_loop_eq fuel, rfl, by decide,
    injected_positions_loop_calls, rfl, by decide, by decide, by decide, by decide⟩

/-- C5: 128 evaluations of the condition do not end the loop, and the second
revolution starts with position 0 at index 1024. -/
theorem C5_two_revolutions_witness :
    software_loop 128 0 = none ∧
    64 < 128 ∧ injected_positions (loop_body (16 * 64)) = [0] := by
  obtain ⟨trace, _, _, _, _, _, _, _, _, hzero⟩ := (C5_two_revolutions 0).2
  exact ⟨(C5_two_revolutions 0).1 128 (by decide), by decide,
    (hzero 64 (by decide)).2 (Or.inr (by decide))⟩

/-! ## Timing -/

set_option maxRecDepth 100000 in
/-- C6: what the code is configured with.  `qeo_gen_abz_signal_hardware` sets
1024 lines and a maximum frequency of 250000 Hz on `TEST_QEO`, whatever the
drivers answer.  With these two macros `TEST_QEO_ABZ_LINES * 1s /
TEST_QEO_ABZ_MAX_FREQ` is exactly 4096 microseconds, not the 4000 of the
comment, and `1s / 4096us` is `15625 / 64` revolutions per second, between 244
and 245, not the 250 of the comment (250 belongs to 4000 microseconds).  The
software loop agrees: the 64 waits of one revolution sum to 4096
microseconds. -/
theorem C6_configured_revolution_4096_us (env : Env) :
    Call.qeo_abz_set_resolution_lines Qeo.TEST_QEO 1024 ∈ qeo_gen_abz_signal_hardware env ∧
    Call.qeo_abz_set_max_frequency Qeo.TEST_QEO env.clock_get_frequency 250000 ∈
      qeo_gen_abz_signal_hardware env ∧
    TEST_QEO_ABZ_LINES = 1024 ∧ TEST_QEO_ABZ_MAX_FREQ = 250000 ∧
    TEST_QEO_ABZ_LINES * 1000000 / TEST_QEO_ABZ_MAX_FREQ = 4096 ∧
    TEST_QEO_ABZ_LINES * 1000000 % TEST_QEO_ABZ_MAX_FREQ = 0 ∧
    TEST_QEO_ABZ_LINES * 1000000 / TEST_QEO_ABZ_MAX_FREQ ≠ 4000 ∧
    (1000000 : ℚ) / ((TEST_QEO_ABZ_LINES : ℚ) * 1000000 / (TEST_QEO_ABZ_MAX_FREQ : ℚ)) =
      15625 / 64 ∧
    1000000 / (TEST_QEO_ABZ_LINES * 1000000 / TEST_QEO_ABZ_MAX_FREQ) = 244 ∧
    250 * (TEST_QEO_ABZ_LINES * 1000000 / TEST_QEO_ABZ_MAX_FREQ) ≠ 1000000 ∧
    250 * 4000 = 1000000 ∧
    (delays ((List.range 64).flatMap (fun k => loop_body (16 * k)))).sum = 4096 := by
  refine ⟨?_, ?_, rfl, rfl, by decide, by decide, by decide, ?_, by decide, by decide,
    by decide, by decide⟩
  · unfold qeo_gen_abz_signal_hardware
    split_ifs <;> simp [TEST_QEO_ABZ_LINES]
  · unfold qeo_gen_abz_signal_hardware
    split_ifs <;> simp [TEST_QEO_ABZ_MAX_FREQ]
  · norm_num [TEST_QEO_ABZ_LINES, TEST_QEO_ABZ_MAX_FREQ]

/-- C7: with the maximum frequency 250000, `period_us` is 4 and `delay_time` is
4, the fallback for `period_us = 0` not being taken.  Each execution of the loop
body moves the position by 16 lines and waits `delay_time * 16 = 64`
microseconds, so the lines are injected at exactly 250000 per second, which does
not exceed the configured maximum; the 128 executions wait 8192 microseconds in
total. -/
theorem C7_delay_matches_frequency (fuel : Nat) :
    TEST_QEO_ABZ_MAX_FREQ = 250000 ∧
    period_us = 4 ∧ period_us ≠ 0 ∧ delay_time = period_us ∧ delay_time = 4 ∧
    u32 (delay_time * 16) = 64 ∧
    (∀ i, loop_body i =
      [Call.qeo_software_position_inject Qeo.TEST_QEO (u32 (post_unit * i)),
       Call.board_delay_us 64]) ∧
    (∀ i, u32 (post_unit * (i + 16)) = u32 (u32 (post_unit * i) + 16 * post_unit)) ∧
    (16 * 1000000 = TEST_QEO_ABZ_MAX_FREQ * u32 (delay_time * 16) ∧
      16 * 1000000 / u32 (delay_time * 16) ≤ TEST_QEO_ABZ_MAX_FREQ) ∧
    ∃ trace, software_loop (fuel + 129) 0 = some trace ∧
      trace = (List.range 128).flatMap (fun k => loop_body (16 * k)) ∧
      delays trace = List.replicate 128 64 ∧
      (delays trace).sum = 8192 := by
  have hd : u32 (delay_time * 16) = 64 := by decide
  have hp : post_unit = 4194304 := by decide
  refine ⟨rfl, by decide, by decide, by decide, by decide, hd, ?_, ?_, by decide,
    loop_calls, software_loop_eq fuel, rfl, delays_loop_calls, ?_⟩
  · intro i
    rw [loop_body, hd]
  · intro i
    simp only [u32, hp]
    omega
  · rw [delays_loop_calls]
    simp

/-! ## Control flow of `qeo_gen_abz_signal_software` -/

/-- C3: when `qeo_abz_set_max_frequency` reports anything but `status_success`,
`qeo_gen_abz_signal_software` returns right after the configuration calls and
the failure message: software injection is enabled zero times and no position
is injected.  When it reports success, the function runs to its end, and the
call enabling software injection comes before the first injected position. -/
theorem C3_max_frequency_failure_stops (env : Env) (fuel : Nat) :
    (env.set_max_frequency_status Qeo.TEST_QEO env.clock_get_frequency TEST_QEO_ABZ_MAX_FREQ
        ≠ status_success →
      ∃ trace, qeo_gen_abz_signal_software env fuel = some trace ∧
        trace =
          [Call.printf Msg.software_banner,
           Call.qeo_abz_get_default_mode_config Qeo.TEST_QEO,
           Call.qeo_abz_config_mode Qeo.TEST_QEO (env.default_mode_config Qeo.TEST_QEO),
           Call.qeo_abz_set_resolution_lines Qeo.TEST_QEO TEST_QEO_ABZ_LINES,
           Call.qeo_abz_set_max_frequency Qeo.TEST_QEO env.clock_get_frequency
             TEST_QEO_ABZ_MAX_FREQ,
           Call.printf Msg.software_max_freq_failed] ∧
        trace.countP Call.is_enable_inject = 0 ∧
        trace.countP Call.is_position_inject = 0) ∧
    (env.set_max_frequency_status Qeo.TEST_QEO env.clock_get_frequency TEST_QEO_ABZ_MAX_FREQ
        = status_success →
      ∃ pre post p, qeo_gen_abz_signal_software env (fuel + 129) =
          some (pre ++ Call.qeo_enable_software_position_inject Qeo.TEST_QEO ::
            Call.qeo_software_position_inject Qeo.TEST_QEO p :: post) ∧
        pre.countP Call.is_position_inject = 0 ∧
        pre.countP Call.is_enable_inject = 0) := by
  constructor
  · intro h
    refine ⟨_, ?_, rfl, ?_, ?_⟩
    · simp [qeo_gen_abz_signal_software, Ne.symm h]
    · simp [Call.is_enable_inject]
    · simp [Call.is_position_inject]
  · intro h
    refine ⟨[Call.printf Msg.software_banner,
        Call.qeo_abz_get_default_mode_config Qeo.TEST_QEO,
        Call.qeo_abz_config_mode Qeo.TEST_QEO (env.default_mode_config Qeo.TEST_QEO),
        Call.qeo_abz_set_resolution_lines Qeo.TEST_QEO TEST_QEO_ABZ_LINES,
        Call.qeo_abz_set_max_frequency Qeo.TEST_QEO env.clock_get_frequency
          TEST_QEO_ABZ_MAX_FREQ],
      Call.board_delay_us (u32 (delay_time * 16)) ::
        ((List.range' 1 127).flatMap (fun k => loop_body (16 * k)) ++
          [Call.qeo_software_position_inject Qeo.TEST_QEO 0,
           Call.qeo_disable_software_position_inject Qeo.TEST_QEO]),
      u32 (post_unit * (16 * 0)), ?_, ?_, ?_⟩
    · simp [qeo_gen_abz_signal_software, h, software_loop_eq, loop_calls_head, loop_body]
    · simp [Call.is_position_inject]
    · simp [Call.is_enable_inject]

/-- C3 on a board where the configuration fails and on one where it succeeds. -/
theorem C3_max_frequency_failure_stops_witness :
    (∃ trace, qeo_gen_abz_signal_software env_fail 0 = some trace ∧
      trace.countP Call.is_enable_inject = 0 ∧
      trace.countP Call.is_position_inject = 0) ∧
    (∃ pre post p, qeo_gen_abz_signal_software env_ok 129 =
        some (pre ++ Call.qeo_enable_software_position_inject Qeo.TEST_QEO ::
          Call.qeo_software_position_inject Qeo.TEST_QEO p :: post) ∧
      pre.countP Call.is_position_inject = 0) := by
  constructor
  · obtain ⟨trace, h, _, h1, h2⟩ :=
      (C3_max_frequency_failure_stops env_fail 0).1 (by decide)
    exact ⟨trace, h, h1, h2⟩
  · obtain ⟨pre, post, p, h, h1, _⟩ :=
      (C3_max_frequency_failure_stops env_ok 0).2 (by decide)
    exact ⟨pre, post, p, h, h1⟩

/-- C9: whenever `qeo_gen_abz_signal_software` gets past the frequency
configuration it runs to its end, and its calls are the configuration, the
enabling of software injection, the loop, the injection of position 0 and the
disabling of software injection.  Position 0 is thus the last position
injected, after all positions of the loop, and injection is enabled exactly
once and disabled exactly once, the disabling being the last call. -/
theorem C9_ends_reset_and_disabled (env : Env) (fuel : Nat)
    (h : env.set_max_frequency_status Qeo.TEST_QEO env.clock_get_frequency
      TEST_QEO_ABZ_MAX_FREQ = status_success) :
    ∃ setup loop trace,
      software_loop (fuel + 129) 0 = some loop ∧
      qeo_gen_abz_signal_software env (fuel + 129) = some trace ∧
      trace = setup ++ [Call.qeo_enable_software_position_inject Qeo.TEST_QEO] ++ loop ++
        [Call.qeo_software_position_inject Qeo.TEST_QEO 0,
         Call.qeo_disable_software_position_inject Qeo.TEST_QEO] ∧
      injected_positions setup = [] ∧
      setup.countP Call.is_enable_inject = 0 ∧
      setup.countP Call.is_disable_inject = 0 ∧
      loop.countP Call.is_enable_inject = 0 ∧
      loop.countP Call.is_disable_inject = 0 ∧
      injected_positions trace = injected_positions loop ++ [0] ∧
      (injected_positions trace).getLast? = some 0 ∧
      trace.countP Call.is_enable_inject = 1 ∧
      trace.countP Call.is_disable_inject = 1 ∧
      trace.getLast? = some (Call.qeo_disable_software_position_inject Qeo.TEST_QEO) := by
  have hloop_e := loop_calls_no_switch.1
  have hloop_d := loop_calls_no_switch.2
  refine ⟨[Call.printf Msg.software_banner,
      Call.qeo_abz_get_default_mode_config Qeo.TEST_QEO,
      Call.qeo_abz_config_mode Qeo.TEST_QEO (env.default_mode_config Qeo.TEST_QEO),
      Call.qeo_abz_set_resolution_lines Qeo.TEST_QEO TEST_QEO_ABZ_LINES,
      Call.qeo_abz_set_max_frequency Qeo.TEST_QEO env.clock_get_frequency
        TEST_QEO_ABZ_MAX_FREQ],
    loop_calls, _, software_loop_eq fuel, ?_, rfl, ?_, ?_, ?_, hloop_e, hloop_d, ?_, ?_, ?_, ?_, ?_⟩
  · simp [qeo_gen_abz_signal_software, h, software_loop_eq]
  · simp [injected_positions, Call.injected]
  · simp [Call.is_enable_inject]
  · simp [Call.is_disable_inject]
  · simp [injected_positions, Call.injected]
  · simp [injected_positions, Call.injected]
  · simp [List.countP_append, hloop_e, Call.is_enable_inject]
  · simp [List.countP_append, hloop_d, Call.is_disable_inject]
  · rw [List.getLast?_append]
    rfl

/-- C9 on a board where the configuration succeeds. -/
theorem C9_ends_reset_and_disabled_witness :
    ∃ trace, qeo_gen_abz_signal_software env_ok 129 = some trace ∧
      (injected_positions trace).getLast? = some 0 ∧
      trace.countP Call.is_enable_inject = 1 ∧
      trace.countP Call.is_disable_inject = 1 ∧
      trace.getLast? = some (Call.qeo_disable_software_position_inject Qeo.TEST_QEO) := by
  obtain ⟨_, _, trace, _, h, _, _, _, _, _, _, _, h1, h2, h3, h4⟩ :=
    C9_ends_reset_and_disabled env_ok 0 (by decide)
  exact ⟨trace, h, h1, h2, h3, h4⟩

/-- C10: every position injected by `qeo_gen_abz_signal_software`, in the loop
or by the final reset, is a multiple of `16 * post_unit`, hence of `post_unit`,
and the sub-state formula `(position / (post_unit / 4)) mod 4` gives 0 on it.
With fuel for the loop the function does return its calls, and on a board where
the configuration succeeds they inject the two revolutions and the reset. -/
theorem C10_injected_on_line_boundary (env : Env) (fuel : Nat) :
    (qeo_gen_abz_signal_software env (fuel + 129)).isSome = true ∧
    (env.set_max_frequency_status Qeo.TEST_QEO env.clock_get_frequency TEST_QEO_ABZ_MAX_FREQ
        = status_success →
      (qeo_gen_abz_signal_software env (fuel + 129)).map injected_positions =
        some (revolution_positions ++ revolution_positions ++ [0])) ∧
    ∀ f trace, qeo_gen_abz_signal_software env f = some trace →
      ∀ p ∈ injected_positions trace,
        16 * post_unit ∣ p ∧ post_unit ∣ p ∧ sub_state post_unit p = 0 := by
  have hall := positions_on_line_boundary
  have hfm : List.filterMap Call.injected loop_calls =
      revolution_positions ++ revolution_positions := injected_positions_loop_calls
  refine ⟨?_, ?_, ?_⟩
  · by_cases h : status_success =
        env.set_max_frequency_status Qeo.TEST_QEO env.clock_get_frequency TEST_QEO_ABZ_MAX_FREQ
    · simp [qeo_gen_abz_signal_software, h.symm, software_loop_eq]
    · simp [qeo_gen_abz_signal_software, h]
  · intro h
    simp [qeo_gen_abz_signal_software, h, software_loop_eq, injected_positions, hfm,
      Call.injected]
  · intro f trace ht p hp
    by_cases h : status_success =
        env.set_max_frequency_status Qeo.TEST_QEO env.clock_get_frequency TEST_QEO_ABZ_MAX_FREQ
    · cases hl : software_loop f 0 with
      | none => simp [qeo_gen_abz_signal_software, h.symm, hl] at ht
      | some loop =>
        have hloop := software_loop_some f loop hl
        subst hloop
        simp only [qeo_gen_abz_signal_software, h.symm, hl, ne_eq, not_true_eq_false,
          if_false, Option.map_some', Option.some.injEq] at ht
        subst ht
        apply hall p
        simp only [injected_positions_append, injected_positions_loop_calls] at hp
        simpa [injected_positions, Call.injected] using hp
    · simp only [qeo_gen_abz_signal_software, ne_eq, h, not_false_eq_true, if_true,
        Option.some.injEq] at ht
      subst ht
      simp [injected_positions, Call.injected] at hp

set_option maxRecDepth 100000 in
/-- C10 at the position `2^26` injected on a board where the configuration
succeeds. -/
theorem C10_injected_on_line_boundary_witness :
    ∃ trace, qeo_gen_abz_signal_software env_ok 129 = some trace ∧
      2 ^ 26 ∈ injected_positions trace ∧
      16 * post_unit ∣ 2 ^ 26 ∧ post_unit ∣ 2 ^ 26 ∧ sub_state post_unit (2 ^ 26) = 0 := by
  have hsome := (C10_injected_on_line_boundary env_ok 0).1
  have hpos := (C10_injected_on_line_boundary env_ok 0).2.1 (by decide)
  obtain ⟨trace, ht⟩ := Option.isSome_iff_exists.mp hsome
  rw [ht] at hpos
  have hmem : 2 ^ 26 ∈ injected_positions trace := by
    have hp : injected_positions trace =
        revolution_positions ++ revolution_positions ++ [0] := by simpa using hpos
    rw [hp]
    decide
  exact ⟨trace, ht, hmem, (C10_injected_on_line_boundary env_ok 0).2.2 _ trace ht _ hmem⟩

/-! ## Control flow of `qeo_gen_abz_signal_hardware` -/

/-- C8: in `qeo_gen_abz_signal_hardware` a failed frequency configuration ends
the function.  If it fails for `TEST_QEO`, the function returns after the
failure message without calling `qeo_abz_set_max_frequency` for `HPM_QEO1`, and
if it fails for either instance none of `trgm_pos_matrix_config`,
`mmc_open_loop_pred`, `synt_enable_timestamp` and
`synt_enable_timestamp_debug_stop` is called.  If both succeed, the function
ends with the position routing for `TEST_QEO`, `mmc_open_loop_pred`, the
position routing for `HPM_QEO1`, `synt_enable_timestamp` and
`synt_enable_timestamp_debug_stop`, in this order, none of them being called
before. -/
theorem C8_hardware_failure_fatal (env : Env) :
    (env.set_max_frequency_status Qeo.TEST_QEO env.clock_get_frequency TEST_QEO_ABZ_MAX_FREQ
        ≠ status_success →
      (qeo_gen_abz_signal_hardware env).getLast? =
        some (Call.printf Msg.qeo0_max_freq_failed) ∧
      (qeo_gen_abz_signal_hardware env).countP (Call.is_set_max_frequency Qeo.HPM_QEO1) = 0 ∧
      (qeo_gen_abz_signal_hardware env).countP Call.is_routing = 0) ∧
    (env.set_max_frequency_status Qeo.TEST_QEO env.clock_get_frequency TEST_QEO_ABZ_MAX_FREQ
        = status_success →
      env.set_max_frequency_status Qeo.HPM_QEO1 env.clock_get_frequency TEST_QEO_ABZ_MAX_FREQ
        ≠ status_success →
      (qeo_gen_abz_signal_hardware env).getLast? =
        some (Call.printf Msg.qeo1_max_freq_failed) ∧
      (qeo_gen_abz_signal_hardware env).countP (Call.is_set_max_frequency Qeo.HPM_QEO1) = 1 ∧
      (qeo_gen_abz_signal_hardware env).countP Call.is_routing = 0) ∧
    (env.set_max_frequency_status Qeo.TEST_QEO env.clock_get_frequency TEST_QEO_ABZ_MAX_FREQ
        = status_success →
      env.set_max_frequency_status Qeo.HPM_QEO1 env.clock_get_frequency TEST_QEO_ABZ_MAX_FREQ
        = status_success →
      ∃ pre, qeo_gen_abz_signal_hardware env = pre ++
          [Call.trgm_pos_matrix_config TrgmOut.QEO_TRGM_POS
             TrgmIn.trgm_pos_matrix_in_from_mmc0_pos0 false,
           Call.mmc_open_loop_pred,
           Call.trgm_pos_matrix_config TrgmOut.trgm_pos_matrix_output_to_qeo1
             TrgmIn.trgm_pos_matrix_in_from_qei0 false,
           Call.synt_enable_timestamp true,
           Call.synt_enable_timestamp_debug_stop true] ∧
        pre.countP Call.is_routing = 0 ∧
        pre.getLast? = some (Call.qeo_abz_set_max_frequency Qeo.HPM_QEO1
          env.clock_get_frequency TEST_QEO_ABZ_MAX_FREQ)) := by
  refine ⟨?_, ?_, ?_⟩
  · intro h
    simp [qeo_gen_abz_signal_hardware, Ne.symm h, Call.is_set_max_frequency, Call.is_routing]
  · intro h0 h1
    simp [qeo_gen_abz_signal_hardware, h0, Ne.symm h1, Call.is_set_max_frequency,
      Call.is_routing]
  · intro h0 h1
    refine ⟨[Call.printf Msg.hardware_banner,
        Call.qeo_abz_get_default_mode_config Qeo.TEST_QEO,
        Call.qeo_abz_get_default_mode_config Qeo.HPM_QEO1,
        Call.qeo_abz_config_mode Qeo.TEST_QEO (env.default_mode_config Qeo.TEST_QEO),
        Call.qeo_abz_config_mode Qeo.HPM_QEO1
          { env.default_mode_config Qeo.HPM_QEO1 with
            output_type := OutputType.qeo_abz_output_pulse_revise },
        Call.qeo_abz_set_resolution_lines Qeo.TEST_QEO TEST_QEO_ABZ_LINES,
        Call.qeo_abz_set_resolution_lines Qeo.HPM_QEO1 TEST_QEO_ABZ_LINES,
        Call.qeo_abz_set_max_frequency Qeo.TEST_QEO env.clock_get_frequency
          TEST_QEO_ABZ_MAX_FREQ,
        Call.qeo_abz_set_max_frequency Qeo.HPM_QEO1 env.clock_get_frequency
          TEST_QEO_ABZ_MAX_FREQ], ?_, ?_, ?_⟩
    · simp [qeo_gen_abz_signal_hardware, h0, h1]
    · simp [Call.is_routing]
    · simp

/-- C8 on a board where the first configuration fails, on one where the second
fails, and on one where both succeed. -/
theorem C8_hardware_failure_fatal_witness :
    ((qeo_gen_abz_signal_hardware env_fail).countP
        (Call.is_set_max_frequency Qeo.HPM_QEO1) = 0 ∧
      (qeo_gen_abz_signal_hardware env_fail).countP Call.is_routing = 0) ∧
    (qeo_gen_abz_signal_hardware env_fail_qeo1).countP Call.is_routing = 0 ∧
    (qeo_gen_abz_signal_hardware env_ok).countP Call.is_routing = 5 := by
  refine ⟨?_, ?_, ?_⟩
  · exact ((C8_hardware_failure_fatal env_fail).1 (by decide)).2
  · exact ((C8_hardware_failure_fatal env_fail_qeo1).2.1 (by decide) (by decide)).2.2
  · obtain ⟨pre, h, hpre, _⟩ := (C8_hardware_failure_fatal env_ok).2.2 (by decide) (by decide)
    rw [h, List.countP_append, hpre]
    decide

end QeoAbz
